import Mathlib

/-!
Verification development for the rest repository: a rate-limit-aware HTTP
request dispatcher for the Discord REST API.  The definitions below are a
shallow embedding of the TypeScript sources:

* src/src/lib/RESTManager.ts  (request assembly, queue table, sweeper)
* src/unnamed/part_000        (RequestHandler: per-bucket queue and the
                              makeRequest retry state machine)

JavaScript numbers that matter to the claims are modelled as rationals
(Rat), with a separate constructor for Infinity where the source uses it.
Asynchronous control flow is modelled functionally: makeRequest consumes a
script of fetch outcomes (one entry per network attempt), and the
interleaving of several handlers around the global timeout is modelled as a
small labelled transition system further below.
-/

namespace Rest

/-- Model of the JavaScript values that can appear in query pairs and in the
request data field: null, undefined, strings, integers and booleans. -/
inductive JSVal where
  | null
  | undef
  | str (s : String)
  | num (i : Int)
  | boolean (b : Bool)
deriving DecidableEq, Repr

/-- Model of the JavaScript typeof operator.  It returns a string value, so
comparing its result against the undefined value with strict inequality is
always true: this is the slip on line 126 of RESTManager.ts, where the
filter reads (typeof value !== undefined) instead of the quoted form used
correctly elsewhere in the repository. -/
def jsTypeof : JSVal → JSVal
  | JSVal.null => JSVal.str "object"
  | JSVal.undef => JSVal.str "undefined"
  | JSVal.str _ => JSVal.str "string"
  | JSVal.num _ => JSVal.str "number"
  | JSVal.boolean _ => JSVal.str "boolean"

/-- Model of the ToString coercion applied by URLSearchParams to each pair
value (string escapes and float formatting are not needed by the claims). -/
def jsToString : JSVal → String
  | JSVal.null => "null"
  | JSVal.undef => "undefined"
  | JSVal.str s => s
  | JSVal.num i => toString i
  | JSVal.boolean b => if b then "true" else "false"

/-- Model of JSON.stringify on the embedded values.  The source only calls
it on values that are not undefined; string escaping is elided because no
claim depends on it. -/
def jsonStringify : JSVal → String
  | JSVal.null => "null"
  | JSVal.undef => "undefined"
  | JSVal.str s => "\"" ++ s ++ "\""
  | JSVal.num i => toString i
  | JSVal.boolean b => if b then "true" else "false"

/-- Truthiness of an optional JavaScript string: absent (undefined or null)
and the empty string are falsy. -/
def strTruthy : Option String → Bool
  | none => false
  | some s => decide (s ≠ "")

/-- Upper-case hexadecimal digit for percent escapes. -/
def hexDigit (n : Nat) : Char :=
  if n < 10 then Char.ofNat (48 + n) else Char.ofNat (55 + n)

/-- Percent escape of one byte, upper-case as produced by URLSearchParams
and by encodeURIComponent. -/
def percentByte (b : UInt8) : String :=
  String.mk ['%', hexDigit (b.toNat / 16), hexDigit (b.toNat % 16)]

/-- Encoding of one byte under application/x-www-form-urlencoded: ASCII
alphanumerics and * - . _ stay, space becomes +, the rest is escaped. -/
def formEncodeByte (b : UInt8) : String :=
  let n := b.toNat
  if (48 ≤ n ∧ n ≤ 57) ∨ (65 ≤ n ∧ n ≤ 90) ∨ (97 ≤ n ∧ n ≤ 122)
      ∨ n = 42 ∨ n = 45 ∨ n = 46 ∨ n = 95 then
    String.mk [Char.ofNat n]
  else if n = 32 then "+"
  else percentByte b

/-- UTF-8 bytes of a string. -/
def utf8Bytes (s : String) : List UInt8 :=
  s.data.flatMap String.utf8EncodeChar

/-- Standard form-urlencoding of a string, over its UTF-8 bytes. -/
def formEncode (s : String) : String :=
  (utf8Bytes s).foldl (fun acc b => acc ++ formEncodeByte b) ""

/-- Encoding of one byte under encodeURIComponent: unreserved characters
stay, the rest is escaped (no + for spaces). -/
def uriComponentByte (b : UInt8) : String :=
  let n := b.toNat
  if (48 ≤ n ∧ n ≤ 57) ∨ (65 ≤ n ∧ n ≤ 90) ∨ (97 ≤ n ∧ n ≤ 122)
      ∨ n = 33 ∨ n = 39 ∨ n = 40 ∨ n = 41 ∨ n = 42 ∨ n = 45 ∨ n = 46
      ∨ n = 95 ∨ n = 126 then
    String.mk [Char.ofNat n]
  else percentByte b

/-- Model of encodeURIComponent, used for the audit-log reason header. -/
def encodeURIComponent (s : String) : String :=
  (utf8Bytes s).foldl (fun acc b => acc ++ uriComponentByte b) ""

/-- Serialization of a URLSearchParams built from a pair sequence: pairs
joined by an ampersand, name and value form-urlencoded. -/
def urlSearchParamsToString (pairs : List (String × JSVal)) : String :=
  String.intercalate "&" (pairs.map fun p => formEncode p.1 ++ "=" ++ formEncode (jsToString p.2))

/-- Rest options, mirroring the RESTOptions interface of RESTManager.ts.
The offset is a duration in milliseconds, retries a count. -/
structure RESTOptions where
  userAgentAppendix : String
  offset : Rat
  retries : Nat
  timeout : Rat
  version : Nat
  api : String
  cdn : String
deriving DecidableEq, Repr

/-- Default options from src/util/Constants.ts (the user agent appendix is
a representative Node version string; no claim depends on it). -/
def restOptionsDefaults : RESTOptions :=
  { userAgentAppendix := "Node.js/v14.0.0"
    offset := 100
    retries := 1
    timeout := 15000
    version := 7
    api := "https://discord.com/api"
    cdn := "https://cdn.discordapp.com" }

/-- User agent constant from src/util/Constants.ts; the repository url and
version come from package.json, which is not part of the sources, so
representative values stand in (no claim depends on them). -/
def UserAgent : String := "DiscordBot (https://github.com/discordjs/rest, 0.0.1)"

/-- A file attachment of a request: the content is None when the file field
is absent (a falsy entry is skipped by the source loop). -/
structure RFile where
  name : String
  file : Option String
deriving DecidableEq, Repr

/-- A logical API request, mirroring the Request interface used by
resolveRequest.  The data field is a JSVal so that null and undefined stay
distinguishable, as the two body branches treat them differently. -/
structure Request where
  method : String
  endpoint : String
  query : Option (List (String × JSVal)) := none
  headers : Option (List (String × String)) := none
  data : JSVal := JSVal.undef
  files : Option (List RFile) := none
  auth : Option Bool := none
  reason : Option String := none
deriving DecidableEq, Repr

/-- Assignment of a key in a JavaScript object modelled as an association
list: an existing key keeps its position and gets the new value, a new key
is appended. -/
def objSet (obj : List (String × String)) (k v : String) : List (String × String) :=
  match obj with
  | [] => [(k, v)]
  | (k0, v0) :: rest => if k0 = k then (k0, v) :: rest else (k0, v0) :: objSet rest k v

/-- Object spread: all pairs of the second list assigned into the first in
order, so later entries win on name collision. -/
def jsSpread (a b : List (String × String)) : List (String × String) :=
  b.foldl (fun acc kv => objSet acc kv.1 kv.2) a

/-- Error message thrown by resolveRequest when auth is required and no
token is set (RESTManager.ts line 140). -/
def noTokenMessage : String :=
  "No bot token has been provided, and is required for the action you are trying to do."

/-- The always-present request headers: User-Agent and the millisecond
precision marker. -/
def baseHeaders (o : RESTOptions) : List (String × String) :=
  [("User-Agent", UserAgent ++ " " ++ o.userAgentAppendix),
   ("X-RateLimit-Precision", "millisecond")]

/-- The mandatory headers of a request, built in source order: User-Agent
and X-RateLimit-Precision always, Authorization when auth is true or unset
(throwing when the token is falsy), X-Audit-Log-Reason when a reason is
given (RESTManager.ts lines 132 to 147). -/
def mandatoryHeaders (o : RESTOptions) (token : Option String) (req : Request) :
    Except String (List (String × String)) :=
  (if req.auth = none ∨ req.auth = some true then
    if strTruthy token then
      Except.ok (baseHeaders o ++ [("Authorization", "Bot " ++ token.getD "")])
    else Except.error noTokenMessage
  else Except.ok (baseHeaders o)).map fun hs =>
    if strTruthy req.reason then
      hs ++ [("X-Audit-Log-Reason", encodeURIComponent (req.reason.getD ""))]
    else hs

/-- One part of a multipart form body: field name, content, and the file
name passed as the third append argument when present. -/
structure FormPart where
  field : String
  value : String
  filename : Option String
deriving DecidableEq, Repr

/-- The body of a resolved request. -/
inductive RBody where
  | noBody
  | jsonBody (payload : String)
  | formBody (parts : List FormPart)
deriving DecidableEq, Repr

/-- Content type produced by FormData.getHeaders(); the boundary is random
in the source, a fixed representative stands in (no claim depends on it). -/
def formDataContentType : String := "multipart/form-data; boundary=X"

/-- File parts appended to the multipart body: one per file entry whose
file field is truthy, appended as (name, content, name). -/
def fileParts (fs : List RFile) : List FormPart :=
  fs.filterMap fun f => f.file.map fun c => FormPart.mk f.name c (some f.name)

/-- The branch of resolveRequest taken when the files check fails: a JSON
body with a Content-Type header when data is neither null nor undefined
(the source uses a loose inequality against null), otherwise no body. -/
def jsonOrNoBody (req : Request) : RBody × List (String × String) :=
  if req.data ≠ JSVal.null ∧ req.data ≠ JSVal.undef then
    (RBody.jsonBody (jsonStringify req.data), [("Content-Type", "application/json")])
  else (RBody.noBody, [])

/-- Body selection of resolveRequest (RESTManager.ts lines 149 to 164):
when files is present and non-empty, a multipart body with a payload_json
field exactly when data is not undefined; otherwise the JSON branch.  The
getHeaders() result of FormData uses a lower-case content-type key. -/
def bodyAndHeaders (req : Request) : RBody × List (String × String) :=
  match req.files with
  | some fs =>
    if fs.length ≠ 0 then
      let parts :=
        if req.data ≠ JSVal.undef then
          fileParts fs ++ [FormPart.mk "payload_json" (jsonStringify req.data) none]
        else fileParts fs
      (RBody.formBody parts, [("content-type", formDataContentType)])
    else jsonOrNoBody req
  | none => jsonOrNoBody req

/-- Predicate of the query filter on RESTManager.ts line 126, written as in
the source: value !== null and (typeof value) !== undefined.  The second
comparison holds for every value because typeof yields a string. -/
def queryFilterPred (v : JSVal) : Bool :=
  decide (v ≠ JSVal.null) && decide (jsTypeof v ≠ JSVal.undef)

/-- Query string of a request (RESTManager.ts line 126): when a query field
is present (any array, even empty, is truthy) a question mark followed by
the URLSearchParams serialization of the filtered pairs. -/
def querystringOf (req : Request) : String :=
  match req.query with
  | some q => "?" ++ urlSearchParamsToString (q.filter fun p => queryFilterPred p.2)
  | none => ""

/-- A resolved request: the full url and the node-fetch options that matter
to the claims (method, merged headers, body). -/
structure ResolvedRequest where
  url : String
  method : String
  headers : List (String × String)
  body : RBody
deriving DecidableEq, Repr

/-- Model of RESTManager.resolveRequest (lines 121 to 180): the url is api
base, version, endpoint and query string; the headers merge caller headers,
then body-type headers, then the mandatory headers, later entries winning;
the auth check throws synchronously before anything is queued. -/
def resolveRequest (o : RESTOptions) (token : Option String) (req : Request) :
    Except String ResolvedRequest :=
  (mandatoryHeaders o token req).map fun hs =>
    { url := o.api ++ "/v" ++ toString o.version ++ req.endpoint ++ querystringOf req
      method := req.method
      headers := jsSpread (jsSpread (jsSpread [] (req.headers.getD [])) (bodyAndHeaders req).2) hs
      body := (bodyAndHeaders req).1 }

/-- Projection of the url from a resolution outcome. -/
def urlOf : Except String ResolvedRequest → Option String
  | Except.ok r => some r.url
  | Except.error _ => none

/-- Request with a query pair holding an undefined value, exercising the
query filter. -/
def reqUndefQuery : Request :=
  { method := "GET", endpoint := "/x", query := some [("a", JSVal.undef)] }

/-- Request with a query pair holding a null value, exercising the question
mark suffix after all pairs are filtered out. -/
def reqNullQuery : Request :=
  { method := "GET", endpoint := "/x", query := some [("a", JSVal.null)] }

/-- A JavaScript number that can be Infinity, for the handler limit field
(the source initializes it to Infinity and resets it to Infinity whenever
the limit header is absent). -/
inductive ExtNum where
  | fin (q : Rat)
  | inf
deriving DecidableEq, Repr

/-- The mutable state of a RequestHandler that the claims mention: the
bucket fields limit, remaining and reset, and the length of the async
queue (asyncQueue.remaining in the source). -/
structure RequestHandlerState where
  limit : ExtNum
  remaining : Rat
  reset : Rat
  queueRemaining : Nat
deriving DecidableEq, Repr

/-- Initial handler state: reset is minus one, remaining is one, limit is
Infinity, nothing queued. -/
def initialHandlerState : RequestHandlerState :=
  { limit := ExtNum.inf, remaining := 1, reset := -1, queueRemaining := 0 }

/-- The limited getter of RequestHandler: remaining is at most zero and the
current time is before the reset time. -/
def limited (st : RequestHandlerState) (now : Rat) : Bool :=
  decide (st.remaining ≤ 0) && decide (now < st.reset)

/-- The inactive getter of RequestHandler: the async queue is empty and the
handler is not limited. -/
def inactive (st : RequestHandlerState) (now : Rat) : Bool :=
  (st.queueRemaining == 0) && !limited st now

/-- The sweeper body of RESTManager (line 80): Cache.sweep deletes every
queue entry whose handler reports inactive, so the entries that remain are
exactly those whose handler is not inactive. -/
def sweepQueues (queues : List (String × RequestHandlerState)) (now : Rat) :
    List (String × RequestHandlerState) :=
  queues.filter fun e => !inactive e.2 now

/-- The rate-limit response headers that makeRequest reads.  Each numeric
field holds the parsed value of a present and truthy header; None covers
both an absent header and an empty value, which the source treats alike
because an empty string is falsy.  The via and global fields record
whether those headers are present and truthy. -/
structure RespHeaders where
  limit : Option Rat
  remaining : Option Rat
  resetAfter : Option Rat
  bucket : Option String
  retry : Option Rat
  via : Bool
  global : Bool
  contentType : Option String
deriving DecidableEq, Repr

/-- Header record with every header absent. -/
def noHeaders : RespHeaders :=
  { limit := none, remaining := none, resetAfter := none, bucket := none
    retry := none, via := false, global := false, contentType := none }

/-- A response body together with the fields the error path reads after
JSON decoding. -/
structure BodyData where
  raw : String
  message : String
  code : Int
deriving DecidableEq, Repr

/-- Result of RequestHandler.parseResponse: the JSON decoding when the
content type starts with application/json, the raw buffer otherwise. -/
inductive Parsed where
  | jsonData (body : BodyData)
  | bufferData (raw : String)
deriving DecidableEq, Repr

/-- Prefix test on strings over their character lists (equivalent to the
library startsWith, stated this way so that concrete instances evaluate). -/
def strStartsWith (s p : String) : Bool := List.isPrefixOf p.data s.data

/-- Model of RequestHandler.parseResponse (part_000 lines 199 to 204). -/
def parseResponse (headers : Option RespHeaders) (body : BodyData) : Parsed :=
  match headers with
  | some h =>
    match h.contentType with
    | some ct => if strStartsWith ct "application/json" then Parsed.jsonData body
                 else Parsed.bufferData body.raw
    | none => Parsed.bufferData body.raw
  | none => Parsed.bufferData body.raw

/-- The message property of a parsed body; reading it from a buffer yields
undefined, modelled as None. -/
def dataMessage : Parsed → Option String
  | Parsed.jsonData b => some b.message
  | Parsed.bufferData _ => none

/-- The code property of a parsed body. -/
def dataCode : Parsed → Option Int
  | Parsed.jsonData b => some b.code
  | Parsed.bufferData _ => none

/-- The state makeRequest reads and writes: the handler bucket fields, the
manager hash table, whether a global timeout is installed, and the current
wall-clock time (advanced by sleeps). -/
structure MReqState where
  handler : RequestHandlerState
  hashes : List (String × String)
  globalTimeout : Bool
  now : Rat
deriving DecidableEq, Repr

/-- One outcome of a fetch attempt: an abort of the timeout timer, another
transport error (propagated verbatim), or a response. -/
inductive FetchOutcome where
  | aborted
  | failed (name : String)
  | response (status : Nat) (statusText : String) (headers : Option RespHeaders) (body : BodyData)
deriving DecidableEq, Repr

/-- Header interpretation of makeRequest (part_000 lines 130 to 169),
run when the response carries headers: limit, remaining and reset are
updated from the headers with their defaults, retryAfter is computed from
Retry-After scaled by 1000 exactly when Via is absent, the hash table entry
is rewritten when a differing bucket header arrives, and the global
timeout is installed when the global header is present.  Returns the new
state and retryAfter. -/
def applyHeaders (o : RESTOptions) (selfHash method route : String)
    (st : MReqState) (headers : Option RespHeaders) : MReqState × Rat :=
  match headers with
  | none => (st, 0)
  | some h =>
    let cloudflare := !h.via
    let limit := match h.limit with
      | some v => ExtNum.fin v
      | none => ExtNum.inf
    let remaining := match h.remaining with
      | some v => v
      | none => (1 : Rat)
    let reset := match h.resetAfter with
      | some v => v * 1000 + st.now + o.offset
      | none => st.now
    let retryAfter := match h.retry with
      | some v => v * (if cloudflare then 1000 else 1) + o.offset
      | none => (0 : Rat)
    let hashes := match h.bucket with
      | some b => if b ≠ selfHash then objSet st.hashes (method ++ "-" ++ route) b else st.hashes
      | none => st.hashes
    let gt := if h.global then true else st.globalTimeout
    ({ st with
        handler := { st.handler with limit := limit, remaining := remaining, reset := reset }
        hashes := hashes
        globalTimeout := gt }, retryAfter)

/-- Outcome of a makeRequest run.  The pending constructor is reached only
when the outcome script runs out while the state machine still wants to
retry; it records the state and the retries counter at that point. -/
inductive MReqResult where
  | ok (value : Parsed)
  | nullResult
  | thrownAbort
  | thrown (name : String)
  | httpError (statusText : String) (status : Nat) (method : String) (url : String)
  | apiError (message : Option String) (code : Option Int) (status : Nat) (method : String) (url : String)
  | pending (st : MReqState) (retries : Nat)
deriving DecidableEq, Repr

/-- Model of RequestHandler.makeRequest (part_000 lines 115 to 196), one
script entry per fetch attempt.  An abort retries while the counter
differs from options.retries, then the abort error propagates; any other
transport error propagates at once.  On a response the headers are
interpreted, then: an ok status returns the parsed body, a 429 sleeps
retryAfter and re-enters with the same counter, a 5xx retries while the
counter differs from options.retries and then raises an HTTPError, another
4xx raises a DiscordAPIError from the parsed body, and anything else
returns null. -/
def makeRequest (o : RESTOptions) (selfHash method route url : String) :
    Nat → MReqState → List FetchOutcome → MReqResult
  | retries, st, [] => MReqResult.pending st retries
  | retries, st, FetchOutcome.aborted :: rest =>
    if retries ≠ o.retries then makeRequest o selfHash method route url (retries + 1) st rest
    else MReqResult.thrownAbort
  | _, _, FetchOutcome.failed name :: _ => MReqResult.thrown name
  | retries, st, FetchOutcome.response status statusText headers body :: rest =>
    let p := applyHeaders o selfHash method route st headers
    if 200 ≤ status ∧ status < 300 then MReqResult.ok (parseResponse headers body)
    else if status = 429 then
      makeRequest o selfHash method route url retries
        { p.1 with now := p.1.now + p.2 } rest
    else if 500 ≤ status ∧ status < 600 then
      if retries ≠ o.retries then makeRequest o selfHash method route url (retries + 1) p.1 rest
      else MReqResult.httpError statusText status method url
    else if 400 ≤ status ∧ status < 500 then
      MReqResult.apiError (dataMessage (parseResponse headers body))
        (dataCode (parseResponse headers body)) status method url
    else MReqResult.nullResult

/-- State transformation of one 429 round: interpret the headers, then
sleep retryAfter. -/
def after429 (o : RESTOptions) (selfHash method route : String)
    (headers : Option RespHeaders) (st : MReqState) : MReqState :=
  let p := applyHeaders o selfHash method route st headers
  { p.1 with now := p.1.now + p.2 }

/-- Initial makeRequest state used by concrete instances. -/
def st0 : MReqState :=
  { handler := initialHandlerState, hashes := [], globalTimeout := false, now := 0 }

/-- A handler with one queued request, used to instantiate the sweeper
property. -/
def busyHandler : RequestHandlerState :=
  { initialHandlerState with queueRemaining := 1 }

/-- Headers carrying a Retry-After of two with a Via header, as a proxied
Discord response would. -/
def hdrRetryVia : RespHeaders :=
  { noHeaders with retry := some 2, via := true }

/-- Headers carrying the three rate-limit headers of the first seed
scenario of the specification. -/
def hdrScenario1 : RespHeaders :=
  { noHeaders with limit := some 5, remaining := some 4, resetAfter := some 2 }

/-- A JSON body used by concrete responses. -/
def body1 : BodyData := { raw := "x", message := "Missing Permissions", code := 50013 }

/-- A 429 response outcome with no rate-limit headers. -/
def out429 : FetchOutcome :=
  FetchOutcome.response 429 "Too Many Requests" (some noHeaders) body1

/-- Left-biased choice on optional strings, used to state lookup results
of merged header objects. -/
def orO (x y : Option String) : Option String :=
  match x with
  | some v => some v
  | none => y

/-- Headers carrying only a JSON content type. -/
def hdrJson : RespHeaders := { noHeaders with contentType := some "application/json" }

/-- Request whose caller headers try to override the Authorization and
Content-Type headers. -/
def req8 : Request :=
  { method := "GET", endpoint := "/x"
    headers := some [("Authorization", "evil"), ("Content-Type", "text/plain")]
    data := JSVal.str "hi" }

/-- The mandatory headers of req8 under the default options and token t. -/
def hs8 : List (String × String) :=
  [("User-Agent", UserAgent ++ " " ++ restOptionsDefaults.userAgentAppendix),
   ("X-RateLimit-Precision", "millisecond"),
   ("Authorization", "Bot t")]

/-- The resolution of req8 under the default options and token t. -/
def res8 : ResolvedRequest :=
  ((resolveRequest restOptionsDefaults (some "t") req8).toOption).getD
    { url := "", method := "", headers := [], body := RBody.noBody }

/-- Request with auth left unset, so authorization is required. -/
def req9 : Request := { method := "GET", endpoint := "/gateway" }

end Rest

namespace RestSched

/-!
Interleaving model of several handlers around the global timeout, following
the suspension points of RequestHandler.push (part_000 lines 80 to 106) and
the cooperative scheduling model of the specification: a handler acquires
the head of its queue, awaits the global timeout once, possibly sleeps on
its local rate limit, then issues the fetch and processes the response,
which may install a new global timeout.  The globalTimeout field is true
while a global timeout promise is installed; its resolution clears it.
-/

/-- Program counter of a handler processing one pushed request, one value
per suspension point of push. -/
inductive HPC where
  | atQueue
  | atGlobal
  | atSleep
  | atFetch
  | processing
  | done
deriving DecidableEq, Repr

/-- State of the whole system: the global timeout latch and the program
counter of every handler (indexed by natural numbers; handlers beyond the
ones a scenario uses simply never move). -/
structure SysState where
  globalTimeout : Bool
  pcs : Nat → HPC

/-- Replacement of the program counter of one handler. -/
def setPC (s : SysState) (h : Nat) (p : HPC) : SysState :=
  { s with pcs := Function.update s.pcs h p }

/-- Transition relation.  The awaitGlobal step is the single point where a
handler observes the global timeout, and it requires the latch to be
clear, mirroring await manager.globalTimeout; the fetch step has no guard
on the latch, mirroring that makeRequest never re-reads it. -/
inductive HStep : SysState → SysState → Prop where
  | acquire (s : SysState) (h : Nat) :
      s.pcs h = HPC.atQueue → HStep s (setPC s h HPC.atGlobal)
  | awaitGlobal (s : SysState) (h : Nat) :
      s.pcs h = HPC.atGlobal → s.globalTimeout = false → HStep s (setPC s h HPC.atSleep)
  | wake (s : SysState) (h : Nat) :
      s.pcs h = HPC.atSleep → HStep s (setPC s h HPC.atFetch)
  | fetch (s : SysState) (h : Nat) :
      s.pcs h = HPC.atFetch → HStep s (setPC s h HPC.processing)
  | respondGlobal (s : SysState) (h : Nat) :
      s.pcs h = HPC.processing →
      HStep s { globalTimeout := true, pcs := Function.update s.pcs h HPC.done }
  | respond (s : SysState) (h : Nat) :
      s.pcs h = HPC.processing → HStep s (setPC s h HPC.done)
  | globalClear (s : SysState) :
      s.globalTimeout = true → HStep s { s with globalTimeout := false }

/-- Initial state: no global timeout, every handler waiting on its queue. -/
def initState : SysState := { globalTimeout := false, pcs := fun _ => HPC.atQueue }

/-- Reachability from the initial state. -/
def Reachable (s : SysState) : Prop := Relation.ReflTransGen HStep initState s

/-- Formal statement of the claim: whenever a handler is about to issue a
network request in a reachable state, the global timeout has been observed
resolved and cleared, that is, the latch is clear at that point. -/
def globalGateClaim : Prop :=
  ∀ s h, Reachable s → s.pcs h = HPC.atFetch → s.globalTimeout = false

/-- Trace states refuting the claim: handler one runs ahead, fetches, and
its response installs the global timeout while handler zero is sleeping on
its local rate limit; handler zero then wakes and fetches with the latch
set. -/
def sA : SysState := setPC initState 1 HPC.atGlobal

/-- Second trace state: handler one past the global await. -/
def sB : SysState := setPC sA 1 HPC.atSleep

/-- Third trace state: handler one awake. -/
def sC : SysState := setPC sB 1 HPC.atFetch

/-- Fourth trace state: handler one in flight. -/
def sD : SysState := setPC sC 1 HPC.processing

/-- Fifth trace state: handler zero acquired its queue head. -/
def sE : SysState := setPC sD 0 HPC.atGlobal

/-- Sixth trace state: handler zero past the global await, sleeping on its
local rate limit. -/
def sF : SysState := setPC sE 0 HPC.atSleep

/-- Seventh trace state: the response of handler one installs the global
timeout. -/
def sG : SysState := { globalTimeout := true, pcs := Function.update sF.pcs 1 HPC.done }

/-- Final trace state: handler zero wakes from its local sleep and stands
at the fetch with the global timeout installed. -/
def sH : SysState := setPC sG 0 HPC.atFetch

/-- State with the global timeout installed and a handler about to fetch,
used to instantiate the amended claim. -/
def wStateA : SysState := { globalTimeout := true, pcs := fun _ => HPC.atFetch }

/-- State with every handler at the global await and the latch clear, used
to instantiate the amended claim. -/
def wStateB : SysState := { globalTimeout := false, pcs := fun _ => HPC.atGlobal }

end RestSched

namespace Rest

/-- C1: the claim reads that the assembled URL appends a question mark plus
the form-urlencoding of exactly the pairs whose value is neither null nor
undefined, with the suffix only when a pair survives.  The source filters
with (typeof value !== undefined), comparing the string produced by typeof
against the undefined value, which holds for every value, so pairs with
undefined values survive and serialize as the text undefined; and the
question mark is appended whenever a query field is present, even when
every pair was filtered out.  Both evaluations below exhibit this. -/
theorem resolveRequest_query_divergence :
    urlOf (resolveRequest restOptionsDefaults (some "t") reqUndefQuery)
      = some "https://discord.com/api/v7/x?a=undefined" ∧
    urlOf (resolveRequest restOptionsDefaults (some "t") reqNullQuery)
      = some "https://discord.com/api/v7/x?" :=
  ⟨by decide, by decide⟩

/-- C5: the sweeper removes a queue entry only when its handler is
inactive, inactive being an empty queue and not limited, so a handler with
a non-empty queue, or a limited one, survives every sweep. -/
theorem sweeper_only_drops_inactive (queues : List (String × RequestHandlerState)) (now : Rat) :
    (∀ e ∈ queues, e ∉ sweepQueues queues now → inactive e.2 now = true) ∧
    (∀ e ∈ queues, e.2.queueRemaining ≠ 0 ∨ limited e.2 now = true → e ∈ sweepQueues queues now) := by
  constructor
  · intro e he hnot
    by_contra hin
    refine hnot (List.mem_filter.2 ⟨he, ?_⟩)
    simp only [Bool.not_eq_true] at hin
    simp [hin]
  · intro e he hcond
    refine List.mem_filter.2 ⟨he, ?_⟩
    rcases hcond with hq | hl
    · simp [inactive, hq]
    · simp [inactive, hl]

/-- Witness for the sweeper property: a handler with one queued request
survives a sweep. -/
theorem sweeper_only_drops_inactive_witness :
    ("h", busyHandler) ∈ sweepQueues [("h", busyHandler)] 0 :=
  (sweeper_only_drops_inactive [("h", busyHandler)] 0).2 ("h", busyHandler)
    (List.mem_singleton.2 rfl) (Or.inl (by decide))

/-- C4: the retryAfter computed from a response equals the Retry-After
value times 1000 when no Via header is present and times 1 when one is,
plus the offset, and is 0 when the header is absent. -/
theorem applyHeaders_retryAfter (o : RESTOptions) (selfHash method route : String)
    (st : MReqState) (h : RespHeaders) :
    (∀ v, h.retry = some v →
      (applyHeaders o selfHash method route st (some h)).2
        = v * (if h.via then 1 else 1000) + o.offset) ∧
    (h.retry = none → (applyHeaders o selfHash method route st (some h)).2 = 0) ∧
    (applyHeaders o selfHash method route st none).2 = 0 := by
  refine ⟨?_, ?_, rfl⟩
  · intro v hv
    cases hvia : h.via <;> simp [applyHeaders, hv, hvia]
  · intro hv
    simp [applyHeaders, hv]

/-- Witness for the retryAfter computation: a proxied response with
Retry-After two and the default offset yields 102 milliseconds. -/
theorem applyHeaders_retryAfter_witness :
    (applyHeaders restOptionsDefaults "h" "GET" "/r" st0 (some hdrRetryVia)).2 = 102 := by
  have := (applyHeaders_retryAfter restOptionsDefaults "h" "GET" "/r" st0 hdrRetryVia).1 2 rfl
  rw [this]
  norm_num [hdrRetryVia, noHeaders, restOptionsDefaults]

/-- C7: after a response carrying headers, limit is the limit header or
Infinity when absent, remaining is the remaining header or 1 when absent,
and reset is now plus the reset-after value times 1000 plus the offset
when present, and exactly now with no offset when absent. -/
theorem applyHeaders_bucket_update (o : RESTOptions) (selfHash method route : String)
    (st : MReqState) (h : RespHeaders) :
    (∀ v, h.limit = some v →
      ((applyHeaders o selfHash method route st (some h)).1).handler.limit = ExtNum.fin v) ∧
    (h.limit = none →
      ((applyHeaders o selfHash method route st (some h)).1).handler.limit = ExtNum.inf) ∧
    (∀ v, h.remaining = some v →
      ((applyHeaders o selfHash method route st (some h)).1).handler.remaining = v) ∧
    (h.remaining = none →
      ((applyHeaders o selfHash method route st (some h)).1).handler.remaining = 1) ∧
    (∀ v, h.resetAfter = some v →
      ((applyHeaders o selfHash method route st (some h)).1).handler.reset
        = st.now + v * 1000 + o.offset) ∧
    (h.resetAfter = none →
      ((applyHeaders o selfHash method route st (some h)).1).handler.reset = st.now) := by
  refine ⟨?_, ?_, ?_, ?_, ?_, ?_⟩
  · intro v hv; simp [applyHeaders, hv]
  · intro hv; simp [applyHeaders, hv]
  · intro v hv; simp [applyHeaders, hv]
  · intro hv; simp [applyHeaders, hv]
  · intro v hv; simp [applyHeaders, hv]; ring
  · intro hv; simp [applyHeaders, hv]

/-- Witness for the bucket update: the headers of the first seed scenario
set limit five, remaining four and reset now plus 2100. -/
theorem applyHeaders_bucket_update_witness :
    ((applyHeaders restOptionsDefaults "h" "GET" "/r" st0 (some hdrScenario1)).1).handler.limit
      = ExtNum.fin 5 ∧
    ((applyHeaders restOptionsDefaults "h" "GET" "/r" st0 (some hdrScenario1)).1).handler.remaining
      = 4 ∧
    ((applyHeaders restOptionsDefaults "h" "GET" "/r" st0 (some hdrScenario1)).1).handler.reset
      = 2100 := by
  have h5 := (applyHeaders_bucket_update restOptionsDefaults "h" "GET" "/r" st0 hdrScenario1).1 5 rfl
  have h4 := (applyHeaders_bucket_update restOptionsDefaults "h" "GET" "/r" st0 hdrScenario1).2.2.1 4 rfl
  have hr := (applyHeaders_bucket_update restOptionsDefaults "h" "GET" "/r" st0 hdrScenario1).2.2.2.2.1 2 rfl
  refine ⟨h5, h4, ?_⟩
  rw [hr]
  norm_num [st0, restOptionsDefaults]

/-- C10: with a non-empty files list a payload_json multipart field is
appended exactly when data is not undefined, so a null data still produces
a payload_json field containing the text null; with no files, a JSON body
and a Content-Type header are produced exactly when data is neither null
nor undefined. -/
theorem resolveRequest_body_branches (req : Request) :
    (∀ fs, req.files = some fs → fs.length ≠ 0 → req.data ≠ JSVal.undef →
      bodyAndHeaders req
        = (RBody.formBody (fileParts fs ++ [FormPart.mk "payload_json" (jsonStringify req.data) none]),
           [("content-type", formDataContentType)])) ∧
    (∀ fs, req.files = some fs → fs.length ≠ 0 → req.data = JSVal.undef →
      bodyAndHeaders req = (RBody.formBody (fileParts fs), [("content-type", formDataContentType)])) ∧
    jsonStringify JSVal.null = "null" ∧
    (req.files = none ∨ req.files = some [] → req.data ≠ JSVal.null → req.data ≠ JSVal.undef →
      bodyAndHeaders req
        = (RBody.jsonBody (jsonStringify req.data), [("Content-Type", "application/json")])) ∧
    (req.files = none ∨ req.files = some [] → req.data = JSVal.null ∨ req.data = JSVal.undef →
      bodyAndHeaders req = (RBody.noBody, [])) := by
  refine ⟨?_, ?_, rfl, ?_, ?_⟩
  · intro fs hfs hlen hdata
    simp [bodyAndHeaders, hfs, hlen, hdata]
  · intro fs hfs hlen hdata
    simp [bodyAndHeaders, hfs, hlen, hdata]
  · intro hfs h1 h2
    rcases hfs with hfs | hfs <;> simp [bodyAndHeaders, jsonOrNoBody, hfs, h1, h2]
  · intro hfs hdata
    rcases hfs with hfs | hfs <;> rcases hdata with hd | hd <;>
      simp [bodyAndHeaders, jsonOrNoBody, hfs, hd]

/-- Witness for the body branches: one file with null data yields a
payload_json part containing the text null. -/
theorem resolveRequest_body_branches_witness :
    bodyAndHeaders
        { method := "POST", endpoint := "/e", data := JSVal.null
          files := some [RFile.mk "f" (some "bytes")] }
      = (RBody.formBody [FormPart.mk "f" "bytes" (some "f"),
                         FormPart.mk "payload_json" "null" none],
         [("content-type", formDataContentType)]) := by
  have := (resolveRequest_body_branches
      { method := "POST", endpoint := "/e", data := JSVal.null
        files := some [RFile.mk "f" (some "bytes")] }).1
      [RFile.mk "f" (some "bytes")] rfl (by decide) (by decide)
  simpa [fileParts, jsonStringify] using this

/-- Unfolding of one 429 round of makeRequest: the handler sleeps
retryAfter and re-enters with the same retries counter. -/
theorem makeRequest_429_step (o : RESTOptions) (selfHash method route url : String)
    (retries : Nat) (st : MReqState) (statusText : String) (headers : Option RespHeaders)
    (body : BodyData) (rest : List FetchOutcome) :
    makeRequest o selfHash method route url retries st
        (FetchOutcome.response 429 statusText headers body :: rest)
      = makeRequest o selfHash method route url retries
          (after429 o selfHash method route headers st) rest := by
  simp [makeRequest, after429]

/-- Any number of consecutive 429 responses re-enters the send step with
the retries counter unchanged, the state advanced by one 429 round each. -/
theorem makeRequest_replicate_429 (o : RESTOptions) (selfHash method route url : String)
    (statusText : String) (headers : Option RespHeaders) (body : BodyData) :
    ∀ (n : Nat) (retries : Nat) (st : MReqState) (rest : List FetchOutcome),
      makeRequest o selfHash method route url retries st
          (List.replicate n (FetchOutcome.response 429 statusText headers body) ++ rest)
        = makeRequest o selfHash method route url retries
            ((after429 o selfHash method route headers)^[n] st) rest := by
  intro n
  induction n with
  | zero => intro retries st rest; simp
  | succ n ih =>
    intro retries st rest
    rw [List.replicate_succ, List.cons_append, makeRequest_429_step, ih,
      Function.iterate_succ_apply]

/-- When makeRequest enters with a retries counter at most options.retries,
every recursive entry stays at most options.retries; in particular the
counter recorded when the outcome script runs out obeys the bound. -/
theorem makeRequest_pending_bound (o : RESTOptions) (selfHash method route url : String) :
    ∀ (script : List FetchOutcome) (retries : Nat) (st st2 : MReqState) (retries2 : Nat),
      retries ≤ o.retries →
      makeRequest o selfHash method route url retries st script = MReqResult.pending st2 retries2 →
      retries2 ≤ o.retries := by
  intro script
  induction script with
  | nil =>
    intro retries st st2 retries2 hle heq
    simp only [makeRequest] at heq
    cases heq
    exact hle
  | cons head rest ih =>
    intro retries st st2 retries2 hle heq
    cases head with
    | aborted =>
      simp only [makeRequest] at heq
      by_cases hr : retries = o.retries
      · rw [if_neg (not_not_intro hr)] at heq
        cases heq
      · rw [if_pos hr] at heq
        exact ih (retries + 1) st st2 retries2 (by omega) heq
    | failed name =>
      simp only [makeRequest] at heq
      cases heq
    | response status statusText headers body =>
      simp only [makeRequest] at heq
      by_cases h2 : 200 ≤ status ∧ status < 300
      · rw [if_pos h2] at heq
        cases heq
      · rw [if_neg h2] at heq
        by_cases h429 : status = 429
        · rw [if_pos h429] at heq
          exact ih retries _ st2 retries2 hle heq
        · rw [if_neg h429] at heq
          by_cases h5 : 500 ≤ status ∧ status < 600
          · rw [if_pos h5] at heq
            by_cases hr : retries = o.retries
            · rw [if_neg (not_not_intro hr)] at heq
              cases heq
            · rw [if_pos hr] at heq
              exact ih (retries + 1) _ st2 retries2 (by omega) heq
          · rw [if_neg h5] at heq
            by_cases h4 : 400 ≤ status ∧ status < 500
            · rw [if_pos h4] at heq
              cases heq
            · rw [if_neg h4] at heq
              cases heq

/-- C3: on the abort and 5xx paths a failure re-enters the send step with
the retries counter incremented exactly while the counter differs from
options.retries, and once the counter equals options.retries the error
propagates, so the counter never exceeds options.retries; a 429 re-enters
the send step with the counter unchanged, for any number of consecutive
429 responses. -/
theorem makeRequest_retry_policy (o : RESTOptions) (selfHash method route url : String) :
    (∀ retries st rest, retries ≠ o.retries →
      makeRequest o selfHash method route url retries st (FetchOutcome.aborted :: rest)
        = makeRequest o selfHash method route url (retries + 1) st rest) ∧
    (∀ st rest,
      makeRequest o selfHash method route url o.retries st (FetchOutcome.aborted :: rest)
        = MReqResult.thrownAbort) ∧
    (∀ retries st rest status statusText headers body,
      500 ≤ status → status < 600 → retries ≠ o.retries →
      makeRequest o selfHash method route url retries st
          (FetchOutcome.response status statusText headers body :: rest)
        = makeRequest o selfHash method route url (retries + 1)
            (applyHeaders o selfHash method route st headers).1 rest) ∧
    (∀ st rest status statusText headers body, 500 ≤ status → status < 600 →
      makeRequest o selfHash method route url o.retries st
          (FetchOutcome.response status statusText headers body :: rest)
        = MReqResult.httpError statusText status method url) ∧
    (∀ n retries st rest statusText headers body,
      makeRequest o selfHash method route url retries st
          (List.replicate n (FetchOutcome.response 429 statusText headers body) ++ rest)
        = makeRequest o selfHash method route url retries
            ((after429 o selfHash method route headers)^[n] st) rest) ∧
    (∀ script retries st st2 retries2, retries ≤ o.retries →
      makeRequest o selfHash method route url retries st script = MReqResult.pending st2 retries2 →
      retries2 ≤ o.retries) := by
  refine ⟨?_, ?_, ?_, ?_, ?_, ?_⟩
  · intro retries st rest hr
    simp only [makeRequest]
    rw [if_pos hr]
  · intro st rest
    simp only [makeRequest]
    rw [if_neg (not_not_intro rfl)]
  · intro retries st rest status statusText headers body h1 h2 hr
    simp only [makeRequest]
    rw [if_neg (by omega), if_neg (by omega), if_pos ⟨h1, h2⟩, if_pos hr]
  · intro st rest status statusText headers body h1 h2
    simp only [makeRequest]
    rw [if_neg (by omega), if_neg (by omega), if_pos ⟨h1, h2⟩, if_neg (not_not_intro rfl)]
  · intro n retries st rest statusText headers body
    exact makeRequest_replicate_429 o selfHash method route url statusText headers body n retries st rest
  · exact makeRequest_pending_bound o selfHash method route url

/-- Witness for the retry policy: with the default single retry, two
aborts raise the abort error; three consecutive 429 responses re-enter
with the counter still zero; and the counter stays within the bound. -/
theorem makeRequest_retry_policy_witness :
    makeRequest restOptionsDefaults "h" "GET" "/r" "u" 0 st0
        [FetchOutcome.aborted, FetchOutcome.aborted] = MReqResult.thrownAbort ∧
    makeRequest restOptionsDefaults "h" "GET" "/r" "u" 0 st0 (List.replicate 3 out429 ++ [])
      = makeRequest restOptionsDefaults "h" "GET" "/r" "u" 0
          ((after429 restOptionsDefaults "h" "GET" "/r" (some noHeaders))^[3] st0) [] ∧
    (0 : Nat) ≤ restOptionsDefaults.retries := by
  have t := makeRequest_retry_policy restOptionsDefaults "h" "GET" "/r" "u"
  refine ⟨?_, ?_, ?_⟩
  · exact (t.1 0 st0 [FetchOutcome.aborted] (by decide)).trans (t.2.1 st0 [])
  · exact t.2.2.2.2.1 3 0 st0 [] "Too Many Requests" (some noHeaders) body1
  · exact t.2.2.2.2.2 [] 0 st0 st0 0 (by decide) rfl

/-- C6: a 2xx response returns the parsed body; a 4xx other than 429
raises a DiscordAPIError carrying the parsed message and code with the
status, method and url; a 5xx with the retries counter exhausted raises an
HTTPError; any other non-ok status returns null. -/
theorem makeRequest_classification (o : RESTOptions) (selfHash method route url : String)
    (retries : Nat) (st : MReqState) (status : Nat) (statusText : String)
    (headers : Option RespHeaders) (body : BodyData) (rest : List FetchOutcome) :
    (200 ≤ status → status < 300 →
      makeRequest o selfHash method route url retries st
          (FetchOutcome.response status statusText headers body :: rest)
        = MReqResult.ok (parseResponse headers body)) ∧
    (400 ≤ status → status < 500 → status ≠ 429 →
      makeRequest o selfHash method route url retries st
          (FetchOutcome.response status statusText headers body :: rest)
        = MReqResult.apiError (dataMessage (parseResponse headers body))
            (dataCode (parseResponse headers body)) status method url) ∧
    (500 ≤ status → status < 600 → retries = o.retries →
      makeRequest o selfHash method route url retries st
          (FetchOutcome.response status statusText headers body :: rest)
        = MReqResult.httpError statusText status method url) ∧
    (status < 200 ∨ 300 ≤ status ∧ status < 400 ∨ 600 ≤ status →
      makeRequest o selfHash method route url retries st
          (FetchOutcome.response status statusText headers body :: rest)
        = MReqResult.nullResult) := by
  refine ⟨?_, ?_, ?_, ?_⟩
  · intro h1 h2
    simp only [makeRequest]
    rw [if_pos ⟨h1, h2⟩]
  · intro h1 h2 h3
    simp only [makeRequest]
    rw [if_neg (by omega), if_neg h3, if_neg (by omega), if_pos ⟨h1, h2⟩]
  · intro h1 h2 h3
    simp only [makeRequest]
    rw [if_neg (by omega), if_neg (by omega), if_pos ⟨h1, h2⟩, if_neg (not_not_intro h3)]
  · intro hcase
    simp only [makeRequest]
    rw [if_neg (by omega), if_neg (by omega), if_neg (by omega), if_neg (by omega)]

/-- Witness for the classification: a 200 with a JSON body returns the
decoded body, a 403 raises the api error with the decoded message and
code, a 503 with retries exhausted raises the transport error, and a 302
returns null. -/
theorem makeRequest_classification_witness :
    makeRequest restOptionsDefaults "h" "GET" "/r" "u" 0 st0
        [FetchOutcome.response 200 "OK" (some hdrJson) body1]
      = MReqResult.ok (Parsed.jsonData body1) ∧
    makeRequest restOptionsDefaults "h" "GET" "/r" "u" 0 st0
        [FetchOutcome.response 403 "Forbidden" (some hdrJson) body1]
      = MReqResult.apiError (some "Missing Permissions") (some 50013) 403 "GET" "u" ∧
    makeRequest restOptionsDefaults "h" "GET" "/r" "u" 1 st0
        [FetchOutcome.response 503 "Service Unavailable" none body1]
      = MReqResult.httpError "Service Unavailable" 503 "GET" "u" ∧
    makeRequest restOptionsDefaults "h" "GET" "/r" "u" 0 st0
        [FetchOutcome.response 302 "Found" none body1]
      = MReqResult.nullResult := by
  refine ⟨?_, ?_, ?_, ?_⟩
  · have := (makeRequest_classification restOptionsDefaults "h" "GET" "/r" "u" 0 st0
        200 "OK" (some hdrJson) body1 []).1 (by decide) (by decide)
    rw [this]
    decide
  · have := (makeRequest_classification restOptionsDefaults "h" "GET" "/r" "u" 0 st0
        403 "Forbidden" (some hdrJson) body1 []).2.1 (by decide) (by decide) (by decide)
    rw [this]
    decide
  · exact (makeRequest_classification restOptionsDefaults "h" "GET" "/r" "u" 1 st0
        503 "Service Unavailable" none body1 []).2.2.1 (by decide) (by decide) rfl
  · exact (makeRequest_classification restOptionsDefaults "h" "GET" "/r" "u" 0 st0
        302 "Found" none body1 []).2.2.2 (by omega)

/-- Lookup after assigning one key into an object: the assigned key maps to
the new value, every other key is unchanged. -/
theorem lookup_objSet (k k0 v0 : String) : ∀ (obj : List (String × String)),
    List.lookup k (objSet obj k0 v0) = if k = k0 then some v0 else List.lookup k obj := by
  intro obj
  induction obj with
  | nil =>
    simp only [objSet, List.lookup]
    by_cases h : k = k0
    · simp [h]
    · simp [h, beq_false_of_ne h]
  | cons p t ih =>
    obtain ⟨k1, v1⟩ := p
    simp only [objSet]
    by_cases h1 : k1 = k0
    · subst h1
      by_cases h2 : k = k1
      · subst h2; simp [List.lookup]
      · simp [List.lookup, h2, beq_false_of_ne h2]
    · rw [if_neg h1]
      by_cases h2 : k = k1
      · subst h2
        simp [List.lookup, h1]
      · simp [List.lookup, beq_false_of_ne h2, ih]

/-- A key outside the key list of an association list has no binding. -/
theorem lookup_none_keys (k : String) : ∀ (l : List (String × String)),
    k ∉ l.map Prod.fst → List.lookup k l = none := by
  intro l
  induction l with
  | nil => intro; rfl
  | cons p t ih =>
    intro hmem
    simp only [List.map_cons, List.mem_cons] at hmem
    push_neg at hmem
    simp [List.lookup, beq_false_of_ne hmem.1, ih hmem.2]

/-- Lookup through an object spread when the spread source has no repeated
keys: the source binding wins, the target binding is the fallback. -/
theorem lookup_jsSpread (k : String) : ∀ (b a : List (String × String)),
    (b.map Prod.fst).Nodup →
    List.lookup k (jsSpread a b) = orO (List.lookup k b) (List.lookup k a) := by
  intro b
  induction b with
  | nil => intro a h; simp [jsSpread, orO, List.lookup]
  | cons p t ih =>
    intro a hnd
    obtain ⟨k0, v0⟩ := p
    simp only [List.map_cons, List.nodup_cons] at hnd
    have hstep : jsSpread a ((k0, v0) :: t) = jsSpread (objSet a k0 v0) t := rfl
    rw [hstep, ih _ hnd.2, lookup_objSet]
    by_cases h2 : k = k0
    · subst h2
      rw [lookup_none_keys k t hnd.1]
      simp [List.lookup, orO]
    · simp [List.lookup, beq_false_of_ne h2, h2]

/-- The mandatory header list never repeats a key. -/
theorem mandatory_keys_nodup (o : RESTOptions) (token : Option String) (req : Request)
    (hs : List (String × String)) (hm : mandatoryHeaders o token req = Except.ok hs) :
    (hs.map Prod.fst).Nodup := by
  unfold mandatoryHeaders at hm
  by_cases hA : req.auth = none ∨ req.auth = some true
  · rw [if_pos hA] at hm
    by_cases hT : strTruthy token
    · rw [if_pos hT] at hm
      by_cases hR : strTruthy req.reason <;>
        simp [Except.map, hR] at hm <;> subst hm <;> simp [baseHeaders]
    · rw [if_neg hT] at hm
      simp [Except.map] at hm
  · rw [if_neg hA] at hm
    by_cases hR : strTruthy req.reason <;>
      simp [Except.map, hR] at hm <;> subst hm <;> simp [baseHeaders]

/-- The body-type header list never repeats a key. -/
theorem additional_keys_nodup (req : Request) :
    (((bodyAndHeaders req).2).map Prod.fst).Nodup := by
  cases hf : req.files with
  | none =>
    simp only [bodyAndHeaders, jsonOrNoBody, hf]
    split <;> simp
  | some fs =>
    simp only [bodyAndHeaders, jsonOrNoBody, hf]
    by_cases hlen : fs.length ≠ 0
    · simp [hlen]
    · rw [if_neg hlen]
      split <;> simp

/-- The body-type headers never contain an Authorization entry. -/
theorem additional_no_auth (req : Request) :
    List.lookup "Authorization" (bodyAndHeaders req).2 = none := by
  cases hf : req.files with
  | none =>
    simp only [bodyAndHeaders, jsonOrNoBody, hf]
    split <;> simp [List.lookup]
  | some fs =>
    simp only [bodyAndHeaders, jsonOrNoBody, hf]
    by_cases hlen : fs.length ≠ 0
    · simp [hlen, List.lookup]
    · rw [if_neg hlen]
      split <;> simp [List.lookup]

/-- When the mandatory headers resolve, resolveRequest succeeds with the
url assembled from the options and the headers spread in merge order. -/
theorem resolveRequest_ok (o : RESTOptions) (token : Option String) (req : Request)
    (hs : List (String × String)) (hm : mandatoryHeaders o token req = Except.ok hs) :
    resolveRequest o token req = Except.ok
      { url := o.api ++ "/v" ++ toString o.version ++ req.endpoint ++ querystringOf req
        method := req.method
        headers := jsSpread (jsSpread (jsSpread [] (req.headers.getD [])) (bodyAndHeaders req).2) hs
        body := (bodyAndHeaders req).1 } := by
  unfold resolveRequest
  rw [hm]
  rfl

/-- Under a required authorization, the mandatory headers bind the
Authorization key to the bot token. -/
theorem mandatory_lookup_auth (o : RESTOptions) (token : Option String) (req : Request)
    (hs : List (String × String)) (hA : req.auth = none ∨ req.auth = some true)
    (hm : mandatoryHeaders o token req = Except.ok hs) :
    List.lookup "Authorization" hs = some ("Bot " ++ token.getD "") := by
  unfold mandatoryHeaders at hm
  rw [if_pos hA] at hm
  by_cases hT : strTruthy token
  · rw [if_pos hT] at hm
    by_cases hR : strTruthy req.reason <;>
      simp [Except.map, hR] at hm <;> subst hm <;> simp [List.lookup]
  · rw [if_neg hT] at hm
    simp [Except.map] at hm

/-- Without authorization the mandatory headers have no Authorization
entry. -/
theorem mandatory_lookup_noauth (o : RESTOptions) (token : Option String) (req : Request)
    (hs : List (String × String)) (hA : ¬(req.auth = none ∨ req.auth = some true))
    (hm : mandatoryHeaders o token req = Except.ok hs) :
    List.lookup "Authorization" hs = none := by
  unfold mandatoryHeaders at hm
  rw [if_neg hA] at hm
  by_cases hR : strTruthy req.reason <;>
    simp [Except.map, hR] at hm <;> subst hm <;> simp [List.lookup]

/-- Without authorization the mandatory headers always resolve. -/
theorem mandatory_ok_noauth (o : RESTOptions) (token : Option String) (req : Request)
    (hA : ¬(req.auth = none ∨ req.auth = some true)) :
    ∃ hs, mandatoryHeaders o token req = Except.ok hs := by
  unfold mandatoryHeaders
  rw [if_neg hA]
  by_cases hR : strTruthy req.reason <;> simp [Except.map, hR]

/-- With authorization required and a truthy token the mandatory headers
always resolve. -/
theorem mandatory_ok_auth (o : RESTOptions) (token : Option String) (req : Request)
    (hA : req.auth = none ∨ req.auth = some true) (hT : strTruthy token = true) :
    ∃ hs, mandatoryHeaders o token req = Except.ok hs := by
  unfold mandatoryHeaders
  rw [if_pos hA, if_pos hT]
  by_cases hR : strTruthy req.reason <;> simp [Except.map, hR]

/-- C8: the final headers merge caller headers, then body-type headers,
then the mandatory headers, later entries winning on name collision, so a
key bound in the mandatory headers can never be overridden by the caller
or by the body-type headers. -/
theorem resolveRequest_header_merge (o : RESTOptions) (token : Option String) (req : Request)
    (hs : List (String × String)) (res : ResolvedRequest)
    (hm : mandatoryHeaders o token req = Except.ok hs)
    (hr : resolveRequest o token req = Except.ok res) :
    (∀ k, List.lookup k res.headers
        = orO (List.lookup k hs)
            (orO (List.lookup k (bodyAndHeaders req).2)
               (List.lookup k (jsSpread [] (req.headers.getD []))))) ∧
    (∀ k v, List.lookup k hs = some v → List.lookup k res.headers = some v) := by
  rw [resolveRequest_ok o token req hs hm] at hr
  cases hr
  have hmain : ∀ k, List.lookup k
      (jsSpread (jsSpread (jsSpread [] (req.headers.getD [])) (bodyAndHeaders req).2) hs)
      = orO (List.lookup k hs)
          (orO (List.lookup k (bodyAndHeaders req).2)
             (List.lookup k (jsSpread [] (req.headers.getD [])))) := by
    intro k
    rw [lookup_jsSpread k hs _ (mandatory_keys_nodup o token req hs hm),
      lookup_jsSpread k (bodyAndHeaders req).2 _ (additional_keys_nodup req)]
  refine ⟨hmain, ?_⟩
  intro k v hv
  rw [hmain k, hv]
  rfl

/-- Witness for the header merge: with caller headers that attempt to
override Authorization and Content-Type, the resolved Authorization header
still carries the bot token. -/
theorem resolveRequest_header_merge_witness :
    List.lookup "Authorization" res8.headers = some "Bot t" :=
  (resolveRequest_header_merge restOptionsDefaults (some "t") req8 hs8 res8
    rfl rfl).2 "Authorization" "Bot t" (by decide)

/-- C9: when auth is true or unset, a falsy token makes resolveRequest
fail synchronously with the configuration error (so nothing is pushed to
a queue), and a set token yields an Authorization header of the form Bot
token; when auth is false no Authorization header is added, the resolved
Authorization binding being exactly the caller one, and no token is
required. -/
theorem resolveRequest_auth (o : RESTOptions) (token : Option String) (req : Request) :
    ((req.auth = none ∨ req.auth = some true) → strTruthy token = false →
      resolveRequest o token req = Except.error noTokenMessage) ∧
    (∀ t, (req.auth = none ∨ req.auth = some true) → token = some t → t ≠ "" →
      ∃ res, resolveRequest o token req = Except.ok res ∧
        List.lookup "Authorization" res.headers = some ("Bot " ++ t)) ∧
    (req.auth = some false →
      ∃ res, resolveRequest o token req = Except.ok res ∧
        List.lookup "Authorization" res.headers
          = List.lookup "Authorization" (jsSpread [] (req.headers.getD []))) := by
  refine ⟨?_, ?_, ?_⟩
  · intro hA hT
    have hm : mandatoryHeaders o token req = Except.error noTokenMessage := by
      unfold mandatoryHeaders
      rw [if_pos hA]
      simp [hT, Except.map]
    unfold resolveRequest
    rw [hm]
    rfl
  · intro t hA htok hne
    subst htok
    have hT : strTruthy (some t) = true := by simp [strTruthy, hne]
    obtain ⟨hs, hm⟩ := mandatory_ok_auth o (some t) req hA hT
    refine ⟨_, resolveRequest_ok o (some t) req hs hm, ?_⟩
    have := (resolveRequest_header_merge o (some t) req hs _ hm
      (resolveRequest_ok o (some t) req hs hm)).1 "Authorization"
    rw [this, mandatory_lookup_auth o (some t) req hs hA hm]
    rfl
  · intro hA
    have hA2 : ¬(req.auth = none ∨ req.auth = some true) := by simp [hA]
    obtain ⟨hs, hm⟩ := mandatory_ok_noauth o token req hA2
    refine ⟨_, resolveRequest_ok o token req hs hm, ?_⟩
    have := (resolveRequest_header_merge o token req hs _ hm
      (resolveRequest_ok o token req hs hm)).1 "Authorization"
    rw [this, mandatory_lookup_noauth o token req hs hA2 hm, additional_no_auth req]
    rfl

/-- Witness for the authorization policy: with no token an auth-requiring
request fails with the configuration error, and with a token the resolved
headers carry Bot t. -/
theorem resolveRequest_auth_witness :
    resolveRequest restOptionsDefaults none req9 = Except.error noTokenMessage ∧
    (∃ res, resolveRequest restOptionsDefaults (some "t") req9 = Except.ok res ∧
      List.lookup "Authorization" res.headers = some ("Bot " ++ "t")) :=
  ⟨(resolveRequest_auth restOptionsDefaults none req9).1 (Or.inl rfl) rfl,
   (resolveRequest_auth restOptionsDefaults (some "t") req9).2.1 "t" (Or.inl rfl) rfl
     (by decide)⟩

end Rest

namespace RestSched

/-- C2 counterexample: the claim that no handler issues a network request
while the global timeout is set fails on the code.  Handler one completes
a request whose response installs the global timeout while handler zero,
which passed its single globalTimeout await earlier, sleeps on its local
rate limit; handler zero then proceeds to the fetch with the latch still
set.  The final state is reachable, has the latch set, and has handler
zero at the fetch point. -/
theorem global_gate_claim_refuted :
    ¬ globalGateClaim ∧ Reachable sH ∧ sH.globalTimeout = true ∧ sH.pcs 0 = HPC.atFetch := by
  have h1 : HStep initState sA := HStep.acquire initState 1 rfl
  have h2 : HStep sA sB :=
    HStep.awaitGlobal sA 1 (by simp [sA, setPC, initState, Function.update]) rfl
  have h3 : HStep sB sC := HStep.wake sB 1 (by simp [sB, setPC, Function.update])
  have h4 : HStep sC sD := HStep.fetch sC 1 (by simp [sC, setPC, Function.update])
  have h5 : HStep sD sE := by
    refine HStep.acquire sD 0 ?_
    simp [sD, sC, sB, sA, setPC, initState, Function.update]
  have h6 : HStep sE sF :=
    HStep.awaitGlobal sE 0 (by simp [sE, setPC, Function.update]) rfl
  have h7 : HStep sF sG := by
    refine HStep.respondGlobal sF 1 ?_
    simp [sF, sE, sD, setPC, Function.update]
  have h8 : HStep sG sH := by
    refine HStep.wake sG 0 ?_
    simp [sH, sG, sF, setPC, Function.update]
  have hreach : Reachable sH :=
    Relation.ReflTransGen.refl.tail h1 |>.tail h2 |>.tail h3 |>.tail h4
      |>.tail h5 |>.tail h6 |>.tail h7 |>.tail h8
  have hpc : sH.pcs 0 = HPC.atFetch := by
    simp [sH, setPC, Function.update]
  refine ⟨?_, hreach, rfl, hpc⟩
  intro hclaim
  have := hclaim sH 0 hreach hpc
  simp [sH, sG, setPC] at this

/-- C2 amended: each handler observes the global timeout exactly once per
pushed request: it can leave the globalTimeout await only in a state where
the latch is clear, and from the fetch point the network request proceeds
unconditionally, with no further look at the latch, so a global timeout
installed after that single observation does not delay the fetch. -/
theorem global_await_single_check (s s2 : SysState) (h : Nat) :
    (HStep s s2 → s.pcs h = HPC.atGlobal → s2.pcs h ≠ HPC.atGlobal →
      s.globalTimeout = false) ∧
    (s.pcs h = HPC.atFetch → HStep s (setPC s h HPC.processing)) := by
  constructor
  · intro hstep hpc hne
    cases hstep with
    | acquire h2 hq =>
      by_cases he : h2 = h
      · subst he
        rw [hq] at hpc
        cases hpc
      · exact absurd (by simp [setPC, Function.update, Ne.symm he, hpc]) hne
    | awaitGlobal h2 hpc2 hgt =>
      exact hgt
    | wake h2 hpc2 =>
      by_cases he : h2 = h
      · subst he
        rw [hpc2] at hpc
        cases hpc
      · exact absurd (by simp [setPC, Function.update, Ne.symm he, hpc]) hne
    | fetch h2 hpc2 =>
      by_cases he : h2 = h
      · subst he
        rw [hpc2] at hpc
        cases hpc
      · exact absurd (by simp [setPC, Function.update, Ne.symm he, hpc]) hne
    | respondGlobal h2 hpc2 =>
      by_cases he : h2 = h
      · subst he
        rw [hpc2] at hpc
        cases hpc
      · exact absurd (by simp [Function.update, Ne.symm he, hpc]) hne
    | respond h2 hpc2 =>
      by_cases he : h2 = h
      · subst he
        rw [hpc2] at hpc
        cases hpc
      · exact absurd (by simp [setPC, Function.update, Ne.symm he, hpc]) hne
    | globalClear hgt =>
      exact absurd hpc hne
  · intro hpc
    exact HStep.fetch s h hpc

/-- Witness for the amended claim: with the latch set and a handler at the
fetch point, the fetch step fires; and a handler leaving the global await
in a concrete step does so with the latch clear. -/
theorem global_await_single_check_witness :
    HStep wStateA (setPC wStateA 0 HPC.processing) ∧ wStateB.globalTimeout = false :=
  ⟨(global_await_single_check wStateA (setPC wStateA 0 HPC.processing) 0).2 rfl,
   (global_await_single_check wStateB (setPC wStateB 0 HPC.atSleep) 0).1
     (HStep.awaitGlobal wStateB 0 rfl rfl) rfl
     (by simp [wStateB, setPC, Function.update])⟩

end RestSched
